import Mathlib

/-!
Verification of the THINKER-GOAT conversational agent (`thinker_goat.py`).

The Python source is shallowly embedded: every class becomes a structure,
every method a pure function; ambient effects are made explicit
(`datetime.now()` and the random module become parameters, the file system
becomes an association list, Python exceptions become `Except`/dedicated
result constructors).  Python floats are modelled as exact rationals `ℚ`;
every property verified here is exercised only at values where float and
rational arithmetic agree.
-/

/-! ## String utilities (models of the Python `str` methods used) -/

/-- Characters treated as whitespace by `str.strip()` / `str.split()`
(ASCII portion; the verified inputs contain no exotic Unicode spaces). -/
def pyIsSpace (c : Char) : Bool :=
  c = ' ' || c = '\t' || c = '\n' || c = '\r' || c = '\x0b' || c = '\x0c'

/-- Model of `str.lower()` (ASCII case mapping; the verified inputs are ASCII). -/
def pyLower (s : String) : String :=
  ⟨s.data.map Char.toLower⟩

/-- Model of `str.strip()`: drop whitespace at both ends. -/
def pyStrip (s : String) : String :=
  ⟨((s.data.dropWhile pyIsSpace).reverse.dropWhile pyIsSpace).reverse⟩

/-- `command.lower().strip()`, the normalisation done at the top of
`ThinkerGOAT.process_command`. -/
def pyNorm (s : String) : String :=
  pyStrip (pyLower s)

/-- Boolean prefix test on character lists. -/
def isPrefixL : List Char → List Char → Bool
  | [], _ => true
  | _ :: _, [] => false
  | a :: as, b :: bs => a == b && isPrefixL as bs

/-- Model of `str.startswith(p)`. -/
def pyStartsWith (s p : String) : Bool :=
  isPrefixL p.data s.data

/-- Model of slicing `s[n:]`. -/
def pyDrop (s : String) (n : Nat) : String :=
  ⟨s.data.drop n⟩

/-- Boolean test for `w` occurring as a contiguous sublist of `t`. -/
def subListB (w : List Char) : List Char → Bool
  | [] => isPrefixL w []
  | c :: rest => isPrefixL w (c :: rest) || subListB w rest

/-- Model of the Python substring test `w in t`. -/
def containsSub (t w : String) : Bool :=
  subListB w.data t.data

/-- Helper for `str.split(' ', 1)`: cut at the first space, if any. -/
def split1 : List Char → List Char × Option (List Char)
  | [] => ([], none)
  | c :: rest =>
      if c = ' ' then ([], some rest)
      else
        let p := split1 rest
        (c :: p.1, p.2)

/-- Model of `s.split(' ', 1)`: the part before the first space, and the
remainder after it when a space exists. -/
def pySplit1 (s : String) : String × Option String :=
  let p := split1 s.data
  (⟨p.1⟩, p.2.map fun l => (⟨l⟩ : String))

/-- Word splitter underlying `str.split()` (no arguments): maximal runs of
non-whitespace characters, empty strings discarded. -/
def wordsAux (l : List Char) : List (List Char) :=
  let p := l.foldr
    (fun c (p : List (List Char) × List Char) =>
      if pyIsSpace c then (if p.2 = [] then p else (p.2 :: p.1, []))
      else (p.1, c :: p.2))
    ([], [])
  if p.2 = [] then p.1 else p.2 :: p.1

/-- Model of `str.split()` with no arguments. -/
def pySplitWS (s : String) : List String :=
  (wordsAux s.data).map fun l => (⟨l⟩ : String)

/-- Digit run to a natural number. -/
def digitsToNat (l : List Char) : Nat :=
  l.foldl (fun a c => a * 10 + (c.toNat - '0'.toNat)) 0

/-- Model of Python `int(s)` on strings: optional surrounding whitespace,
optional sign, one or more digits.  (Underscore digit grouping, accepted by
CPython, is not modelled; no verified property exercises it.)  Returns
`none` where CPython raises `ValueError`. -/
def pyParseInt (s : String) : Option Int :=
  match (pyStrip s).data with
  | [] => none
  | c :: rest =>
      let sd : Bool × List Char :=
        if c = '-' then (true, rest)
        else if c = '+' then (false, rest)
        else (false, c :: rest)
      if sd.2 ≠ [] ∧ sd.2.all Char.isDigit then
        let n : Int := (digitsToNat sd.2 : Nat)
        some (if sd.1 then -n else n)
      else none

/-- Longest digit run at the head of a character list, and the rest. -/
def takeDigits (l : List Char) : List Char × List Char :=
  (l.takeWhile Char.isDigit, l.dropWhile Char.isDigit)

/-- Model of Python `float(s)` on strings: optional sign, decimal mantissa,
optional exponent part.  (`inf`/`nan` and underscore grouping are not
modelled; the value is an exact rational.)  Returns `none` where CPython
raises `ValueError`. -/
def pyParseFloat (s : String) : Option ℚ :=
  let l := (pyStrip s).data
  let sl : Bool × List Char :=
    match l with
    | '-' :: r => (true, r)
    | '+' :: r => (false, r)
    | _ => (false, l)
  let ipRest := takeDigits sl.2
  let fpRest : Option (List Char) × List Char :=
    match ipRest.2 with
    | '.' :: r =>
        let d := takeDigits r
        (some d.1, d.2)
    | _ => (none, ipRest.2)
  let hasMantissa : Bool :=
    ipRest.1 ≠ [] || (fpRest.1.getD []) ≠ []
  let expRest : Option Int × List Char :=
    match fpRest.2 with
    | 'e' :: r | 'E' :: r =>
        match r with
        | '-' :: r2 =>
            let d := takeDigits r2
            (if d.1 = [] then none else some (-(digitsToNat d.1 : Int)), d.2)
        | '+' :: r2 =>
            let d := takeDigits r2
            (if d.1 = [] then none else some (digitsToNat d.1 : Int), d.2)
        | _ =>
            let d := takeDigits r
            (if d.1 = [] then none else some (digitsToNat d.1 : Int), d.2)
    | _ => (some 0, fpRest.2)
  if hasMantissa ∧ expRest.1.isSome ∧ expRest.2 = [] then
    let fp := fpRest.1.getD []
    let mant : ℚ := (digitsToNat ipRest.1 : ℚ) + (digitsToNat fp : ℚ) / ((10 : ℚ) ^ fp.length)
    let v : ℚ := mant * (10 : ℚ) ^ (expRest.1.getD 0)
    some (if sl.1 then -v else v)
  else none

/-- Fixed-point rendering of a rational with `d` decimal places, used for the
Python format specifiers `:.1f`/`:.2f`/`:.3f`.  (Rounds half away from zero;
the binary-float tie-breaking of CPython is not reproduced, and no verified
property depends on these display strings.) -/
def formatQ (d : Nat) (q : ℚ) : String :=
  let scale : Int := (10 : Int) ^ d
  let n : Int := ⌊q * (scale : ℚ) + 1/2⌋
  let ip : Int := n / scale
  let fp : Int := n % scale
  let fpStr := toString fp.natAbs
  let pad := String.mk (List.replicate (d - fpStr.length) '0')
  if d = 0 then toString ip else toString ip ++ "." ++ pad ++ fpStr

/-! ## FeelingEngine (mood model) -/

/-- `FeelingEngine.__init__`: energy 75.0, calm 0.3, curiosity 0.6,
frustration 0.1. -/
structure FeelingEngine where
  energy : ℚ
  calm : ℚ
  curiosity : ℚ
  frustration : ℚ
deriving DecidableEq

def FeelingEngine.init : FeelingEngine :=
  { energy := 75, calm := 3/10, curiosity := 6/10, frustration := 1/10 }

/-- `FeelingEngine.react(reward)`: energy and curiosity are shifted by the
reward and clamped to `[0,100]` and `[0,1]` respectively. -/
def FeelingEngine.react (fe : FeelingEngine) (reward : ℚ) : FeelingEngine :=
  { fe with
      energy := max 0 (min 100 (fe.energy + 2 * reward)),
      curiosity := max 0 (min 1 (fe.curiosity + (1/10) * reward)) }

/-- `FeelingEngine.get_mood`: ordered threshold classification. -/
def FeelingEngine.get_mood (fe : FeelingEngine) : String :=
  if fe.energy > 80 then "energetic"
  else if fe.curiosity > 7/10 then "curious"
  else if fe.energy < 30 then "tired"
  else "calm"

/-! ## GoalSystem -/

/-- A goal dictionary as built by `GoalSystem.add_goal`; the `completed`
field models the `'completed'` key added on completion (`None` before). -/
structure Goal where
  id : Int
  description : String
  priority : Int
  created : String
  progress : ℚ
  completed : Option String
deriving DecidableEq

structure GoalSystem where
  active_goals : List Goal
  completed_goals : List Goal
  max_goals : Nat
deriving DecidableEq

/-- `GoalSystem.__init__`: note that `max_goals` is the hard-coded constant
5; the constructor takes no configuration argument. -/
def GoalSystem.init : GoalSystem :=
  { active_goals := [], completed_goals := [], max_goals := 5 }

/-- `GoalSystem.add_goal`; `now` stands for `datetime.now().isoformat()`.
The fresh id is computed as `len(self.active_goals) + 1`, exactly as in the
source. -/
def add_goal (gs : GoalSystem) (description : String) (priority : Int)
    (now : String) : GoalSystem × String :=
  if gs.active_goals.length ≥ gs.max_goals then
    (gs, "Cannot add more goals - limit reached")
  else
    let g : Goal :=
      { id := (gs.active_goals.length : Int) + 1, description := description,
        priority := priority, created := now, progress := 0, completed := none }
    ({ gs with active_goals := gs.active_goals ++ [g] }, "Goal added: " ++ description)

/-- The `for i, goal in enumerate(active_goals)` loop of
`GoalSystem.complete_goal`: pops the first goal whose id matches, returning
the remaining list and the popped goal. -/
def completeLoop (gid : Int) : List Goal → Option (List Goal × Goal)
  | [] => none
  | g :: gs =>
      if g.id = gid then some (gs, g)
      else
        match completeLoop gid gs with
        | some p => some (g :: p.1, p.2)
        | none => none

/-- `GoalSystem.complete_goal`: move the first matching active goal to the
completed list, stamping its `'completed'` key. -/
def complete_goal (gs : GoalSystem) (now : String) (gid : Int) : GoalSystem × String :=
  match completeLoop gid gs.active_goals with
  | some p =>
      ({ gs with active_goals := p.1,
                 completed_goals := gs.completed_goals ++ [{ p.2 with completed := some now }] },
        "Goal completed: " ++ p.2.description)
  | none => (gs, "Goal not found")

/-- The `for goal in active_goals` loop of `GoalSystem.update_progress`:
clamp and store the progress of the first goal whose id matches, returning
the updated list and the clamped value. -/
def updateLoop (gid : Int) (p : ℚ) : List Goal → Option (List Goal × ℚ)
  | [] => none
  | g :: gs =>
      if g.id = gid then
        let v := max 0 (min 1 p)
        some (({ g with progress := v }) :: gs, v)
      else
        match updateLoop gid p gs with
        | some q => some (g :: q.1, q.2)
        | none => none

/-- `GoalSystem.update_progress`: clamp the value into the first matching
active goal; if the clamped value reaches 1.0, call `complete_goal`
(discarding its message) before returning. -/
def update_progress (gs : GoalSystem) (now : String) (gid : Int) (p : ℚ) :
    GoalSystem × String :=
  match updateLoop gid p gs.active_goals with
  | some q =>
      let gs' := { gs with active_goals := q.1 }
      let gs'' := if 1 ≤ q.2 then (complete_goal gs' now gid).1 else gs'
      (gs'', "Progress updated for goal " ++ toString gid)
  | none => (gs, "Goal not found")

/-- One user-visible goal-tracker operation, for stating invariants over
arbitrary operation sequences. -/
inductive GoalOp
  | addG (description : String) (priority : Int) (now : String)
  | updateG (gid : Int) (p : ℚ) (now : String)
  | completeG (gid : Int) (now : String)

def applyOp (gs : GoalSystem) : GoalOp → GoalSystem
  | .addG d pr n => (add_goal gs d pr n).1
  | .updateG gid p n => (update_progress gs n gid p).1
  | .completeG gid n => (complete_goal gs n gid).1

def applyOps (gs : GoalSystem) (ops : List GoalOp) : GoalSystem :=
  ops.foldl applyOp gs

/-! ## VectorMemory

A memory record is a Python dict.  For the search code only two views of a
record matter: its `str()` serialisation (scoring matches query words
against it) and its `'type'` key (`show_memory_stats` counts by it), so a
dict is modelled by those two strings.  Python dicts support `==` but not
`<`, which drives the sort model below. -/

deriving instance DecidableEq for Except

structure PyDict where
  typ : String
  text : String
deriving DecidableEq

/-- A scored entry `(score, memory)` as built by `search_similar`. -/
abbrev SM := ℚ × PyDict

structure VectorMemory where
  memories : List PyDict
  importance_scores : List ℚ
deriving DecidableEq

def VectorMemory.init : VectorMemory :=
  { memories := [], importance_scores := [] }

/-- `VectorMemory.add_memory`: append the record and its importance. -/
def add_memory (vm : VectorMemory) (m : PyDict) (importance : ℚ) : VectorMemory :=
  { memories := vm.memories ++ [m],
    importance_scores := vm.importance_scores ++ [importance] }

/-- The score `search_similar` computes for one record: the number of
lowercased query words occurring as substrings of `str(memory).lower()`,
multiplied by `(1 + importance)`. -/
def scoreOfMem (q : String) (d : PyDict) (imp : ℚ) : ℚ :=
  (((pySplitWS (pyLower q)).countP fun w => containsSub (pyLower d.text) w) : ℚ)
    * (1 + imp)

/-- The `scored_memories` list: each record paired with its score (records
are paired with importances positionally, as the `enumerate` loop does). -/
def scoredList (vm : VectorMemory) (q : String) : List SM :=
  (vm.memories.zip vm.importance_scores).map fun p => (scoreOfMem q p.1 p.2, p.1)

/-- One comparison `a < b` between scored tuples, as CPython's sort performs
it.  Tuple comparison first locates the first component where the tuples
differ (using `==`): unequal scores are decided numerically; equal scores
with unequal dicts fall back to `dict < dict`, which raises `TypeError`
(modelled by `.error ()`); fully equal tuples compare as not-less. -/
def tupLt (a b : SM) : Except Unit Bool :=
  if a.1 = b.1 then (if a.2 = b.2 then .ok false else .error ()) else .ok (decide (a.1 < b.1))

/-- Descending merge of two lists under the failing comparator, modelling
the comparisons `list.sort(reverse=True)` performs.  The first argument is
fuel that makes the recursion structural; callers supply the combined
length, which is always sufficient. -/
def mergeF : Nat → List SM → List SM → Except Unit (List SM)
  | _, [], ys => .ok ys
  | _, x :: xs, [] => .ok (x :: xs)
  | 0, x :: xs, y :: ys => .ok (x :: xs ++ y :: ys)
  | fuel + 1, x :: xs, y :: ys =>
      match tupLt x y with
      | .error e => .error e
      | .ok true =>
          match mergeF fuel (x :: xs) ys with
          | .error e => .error e
          | .ok r => .ok (y :: r)
      | .ok false =>
          match mergeF fuel xs (y :: ys) with
          | .error e => .error e
          | .ok r => .ok (x :: r)

/-- Fuelled descending merge sort under the failing comparator.  It agrees
observably with `list.sort(reverse=True)`: on inputs whose ties are between
fully equal tuples it succeeds with the unique weakly-descending stable
result, and any comparison-based sort must directly compare some tied
unequal pair when one exists, raising `TypeError`. -/
def msortF : Nat → List SM → Except Unit (List SM)
  | _, [] => .ok []
  | _, [a] => .ok [a]
  | 0, l => .ok l
  | fuel + 1, l =>
      let n := l.length / 2
      match msortF fuel (l.take n), msortF fuel (l.drop n) with
      | .ok a, .ok b => mergeF (a.length + b.length) a b
      | .error e, _ => .error e
      | .ok _, .error e => .error e

/-- `scored_memories.sort(reverse=True)` as a function on lists. -/
def msortD (l : List SM) : Except Unit (List SM) :=
  msortF l.length l

/-- Ordering every successful sort output satisfies pairwise: an earlier
entry either has a strictly greater score, or is literally the same tuple
(equal tuples compare without touching the unordered dicts). -/
def smR (a b : SM) : Prop :=
  b.1 < a.1 ∨ a = b

/-- `VectorMemory.search_similar` up to the final projection: the sorted
scored list truncated to `top_k` and filtered to positive scores. -/
def search_similar_pairs (vm : VectorMemory) (q : String) (k : Nat) :
    Except Unit (List SM) :=
  match msortD (scoredList vm q) with
  | .error e => .error e
  | .ok sorted => .ok ((sorted.take k).filter fun p => decide (0 < p.1))

/-- `VectorMemory.search_similar(query, top_k)`: `.error ()` models the
uncaught `TypeError` escaping from `list.sort`. -/
def search_similar (vm : VectorMemory) (q : String) (k : Nat) :
    Except Unit (List PyDict) :=
  match search_similar_pairs vm q k with
  | .error e => .error e
  | .ok ps => .ok (ps.map Prod.snd)

/-! ## The `calculate` tool

`ToolSystem.calculate` deletes every character outside `[0-9+\-*/(). ]`
with `re.sub` and passes the remainder to `eval`.  `eval` restricted to
that character set is an arithmetic expression evaluator, modelled here by
a tokenizer and a recursive-descent parser with Python's precedence
(`+ -` < `* /` < unary sign < atoms).  Values are exact rationals; the
verified inputs are integer-valued, where Python agrees.  Parse failures
and division by zero model the exceptions `calculate` catches. -/

/-- The character class kept by `re.sub(r'[^0-9+\-*/(). ]', '', ...)`. -/
def calcAllowed (c : Char) : Bool :=
  c.isDigit || c = '+' || c = '-' || c = '*' || c = '/' || c = '(' || c = ')' ||
    c = '.' || c = ' '

/-- The `safe_expression` string: all disallowed characters deleted. -/
def calcFilter (s : String) : String :=
  ⟨s.data.filter calcAllowed⟩

inductive CalcTok
  | num (v : ℚ)
  | plus
  | minus
  | star
  | slash
  | lparen
  | rparen
deriving DecidableEq

/-- Convert a numeric token (digits with at most one dot, at least one
digit) to a rational, or fail as Python's tokenizer would. -/
def numTokVal (l : List Char) : Option ℚ :=
  let ip := l.takeWhile Char.isDigit
  match l.dropWhile Char.isDigit with
  | [] => if ip = [] then none else some ((digitsToNat ip : Nat) : ℚ)
  | '.' :: rest =>
      if rest.all Char.isDigit ∧ (ip ≠ [] ∨ rest ≠ []) then
        some ((digitsToNat ip : ℚ) + (digitsToNat rest : ℚ) / (10 : ℚ) ^ rest.length)
      else none
  | _ => none

/-- Convert a pending run of number characters into a token, prepending it
to the already-tokenized suffix; an empty run contributes nothing. -/
def calcFlush (run : List Char) (ts : List CalcTok) : Option (List CalcTok) :=
  if run = [] then some ts
  else
    match numTokVal run with
    | some v => some (CalcTok.num v :: ts)
    | none => none

/-- One step of tokenization, consuming characters right to left; the state
is the token list of the suffix already processed together with the maximal
run of number characters at its head. -/
def calcStep (c : Char) (st : Option (List CalcTok × List Char)) :
    Option (List CalcTok × List Char) :=
  match st with
  | none => none
  | some p =>
      if c.isDigit || c = '.' then some (p.1, c :: p.2)
      else
        match calcFlush p.2 p.1 with
        | none => none
        | some ts =>
            if c = ' ' then some (ts, [])
            else if c = '+' then some (CalcTok.plus :: ts, [])
            else if c = '-' then some (CalcTok.minus :: ts, [])
            else if c = '*' then some (CalcTok.star :: ts, [])
            else if c = '/' then some (CalcTok.slash :: ts, [])
            else if c = '(' then some (CalcTok.lparen :: ts, [])
            else if c = ')' then some (CalcTok.rparen :: ts, [])
            else none

/-- Tokenize the filtered expression; spaces separate tokens, maximal runs
of digits and dots form number tokens. -/
def calcTokenize (l : List Char) : Option (List CalcTok) :=
  match l.foldr calcStep (some ([], [])) with
  | none => none
  | some p => calcFlush p.2 p.1

/-- Errors `eval(safe_expression)` can raise on this grammar. -/
inductive CalcErr
  | syntaxErr
  | zeroDiv
deriving DecidableEq

def CalcErr.msg : CalcErr → String
  | .syntaxErr => "invalid syntax (<string>, line 1)"
  | .zeroDiv => "division by zero"

mutual

/-- `expr := term (('+'|'-') term)*`, left associative. -/
def parseExpr : Nat → List CalcTok → Except CalcErr (ℚ × List CalcTok)
  | 0, _ => .error .syntaxErr
  | fuel + 1, ts =>
      match parseTerm fuel ts with
      | .error e => .error e
      | .ok p => parseExprRest fuel p.1 p.2

def parseExprRest : Nat → ℚ → List CalcTok → Except CalcErr (ℚ × List CalcTok)
  | 0, _, _ => .error .syntaxErr
  | fuel + 1, acc, ts =>
      match ts with
      | .plus :: rest =>
          match parseTerm fuel rest with
          | .error e => .error e
          | .ok p => parseExprRest fuel (acc + p.1) p.2
      | .minus :: rest =>
          match parseTerm fuel rest with
          | .error e => .error e
          | .ok p => parseExprRest fuel (acc - p.1) p.2
      | _ => .ok (acc, ts)

/-- `term := factor (('*'|'/') factor)*`, left associative; `/` is exact
division, failing on a zero divisor as `ZeroDivisionError`. -/
def parseTerm : Nat → List CalcTok → Except CalcErr (ℚ × List CalcTok)
  | 0, _ => .error .syntaxErr
  | fuel + 1, ts =>
      match parseFactor fuel ts with
      | .error e => .error e
      | .ok p => parseTermRest fuel p.1 p.2

def parseTermRest : Nat → ℚ → List CalcTok → Except CalcErr (ℚ × List CalcTok)
  | 0, _, _ => .error .syntaxErr
  | fuel + 1, acc, ts =>
      match ts with
      | .star :: rest =>
          match parseFactor fuel rest with
          | .error e => .error e
          | .ok p => parseTermRest fuel (acc * p.1) p.2
      | .slash :: rest =>
          match parseFactor fuel rest with
          | .error e => .error e
          | .ok p =>
              if p.1 = 0 then .error .zeroDiv
              else parseTermRest fuel (acc / p.1) p.2
      | _ => .ok (acc, ts)

/-- `factor := ('+'|'-') factor | number | '(' expr ')'`. -/
def parseFactor : Nat → List CalcTok → Except CalcErr (ℚ × List CalcTok)
  | 0, _ => .error .syntaxErr
  | fuel + 1, ts =>
      match ts with
      | .plus :: rest => parseFactor fuel rest
      | .minus :: rest =>
          match parseFactor fuel rest with
          | .error e => .error e
          | .ok p => .ok (-p.1, p.2)
      | .num v :: rest => .ok (v, rest)
      | .lparen :: rest =>
          match parseExpr fuel rest with
          | .error e => .error e
          | .ok p =>
              match p.2 with
              | .rparen :: rest2 => .ok (p.1, rest2)
              | _ => .error .syntaxErr
      | _ => .error .syntaxErr

end

/-- `eval(safe_expression)` on the restricted grammar. -/
def calcEval (s : String) : Except CalcErr ℚ :=
  match calcTokenize s.data with
  | none => .error .syntaxErr
  | some ts =>
      match parseExpr (ts.length + 1) ts with
      | .error e => .error e
      | .ok p => if p.2 = [] then .ok p.1 else .error .syntaxErr

/-- Rendering of the evaluated value into the result f-string.  Integral
values print as Python ints do; a non-integral value prints as an exact
fraction (Python would print a decimal float — no verified property
evaluates a non-integral expression). -/
def calcRender (v : ℚ) : String :=
  if v.den = 1 then toString v.num
  else toString v.num ++ "/" ++ toString v.den

/-- `ToolSystem.calculate(expression)`: filter the characters, evaluate the
remainder, and format either the result or the caught exception. -/
def calculate (expression : String) : String :=
  match calcEval (calcFilter expression) with
  | .ok v => "Calculation: " ++ expression ++ " = " ++ calcRender v
  | .error e => "Calculation error: " ++ e.msg

/-! ## The remaining tools and the tool dispatcher -/

/-- The file-system boundary used by the `write_file`/`read_file` tools: an
association list from filename to content. -/
abbrev FileSys := List (String × String)

def fsLookup (fs : FileSys) (name : String) : Option String :=
  match fs.find? (fun p => p.1 = name) with
  | some p => some p.2
  | none => none

def fsWrite (fs : FileSys) (name content : String) : FileSys :=
  match fs with
  | [] => [(name, content)]
  | p :: rest => if p.1 = name then (name, content) :: rest else p :: fsWrite rest name content

/-- `ToolSystem.web_search`: a pure stub. -/
def web_search (q : String) : String :=
  "[SIMULATED SEARCH] Results for: " ++ q ++ "\n- Result 1: Information about " ++ q
    ++ "\n- Result 2: More details about " ++ q

/-- `ToolSystem.write_file`: `open(filename, 'w')` fails for the empty
filename (`FileNotFoundError`, caught and formatted); otherwise the file is
created or overwritten. -/
def write_file (fs : FileSys) (filename content : String) : String × FileSys :=
  if filename = "" then
    ("File write error: [Errno 2] No such file or directory: ''", fs)
  else
    ("Successfully wrote to " ++ filename, fsWrite fs filename content)

/-- `ToolSystem.read_file`: a missing file gives the caught-and-formatted
`FileNotFoundError`. -/
def read_file (fs : FileSys) (filename : String) : String :=
  match fsLookup fs filename with
  | some content => "File content from " ++ filename ++ ":\n" ++ content
  | none => "File read error: [Errno 2] No such file or directory: '" ++ filename ++ "'"

/-- The substrings `ToolSystem.execute_python` rejects before executing. -/
def dangerousFragments : List String :=
  ["import os", "import sys", "__import__", "eval(", "exec("]

/-- `ToolSystem.execute_python`: the blacklist check is modelled exactly;
the `exec` of arbitrary Python in an emptied environment is an external
boundary whose outcome (success, or the exception the wrapper catches) is
supplied as an oracle — every outcome is a string, which is all any
verified property uses. -/
def execute_python (outcome : Except String Unit) (code : String) : String :=
  if dangerousFragments.any (fun f => containsSub code f) then
    "Error: Potentially unsafe code detected"
  else
    match outcome with
    | .ok _ => "Code executed successfully"
    | .error e => "Execution error: " ++ e

/-- Positional arguments a tool call passes (the dispatcher uses one- and
two-argument calls only). -/
inductive ToolArgs
  | one (a : String)
  | two (a b : String)

/-- `ToolSystem.use_tool(tool_name, *args)`: unknown names are reported,
and the `try/except` wrapper converts any exception from the handler call
(such as an arity mismatch) into a `"Tool error:"` string.  Each handler
itself already catches its own exceptions internally. -/
def use_tool (fs : FileSys) (execOutcome : Except String Unit) (name : String)
    (args : ToolArgs) : String × FileSys :=
  if name = "web_search" then
    match args with
    | .one q => (web_search q, fs)
    | .two _ _ => ("Tool error: wrong number of arguments", fs)
  else if name = "calculate" then
    match args with
    | .one e => (calculate e, fs)
    | .two _ _ => ("Tool error: wrong number of arguments", fs)
  else if name = "write_file" then
    match args with
    | .two a b => write_file fs a b
    | .one _ => ("Tool error: wrong number of arguments", fs)
  else if name = "read_file" then
    match args with
    | .one a => (read_file fs a, fs)
    | .two _ _ => ("Tool error: wrong number of arguments", fs)
  else if name = "execute_python" then
    match args with
    | .one code => (execute_python execOutcome code, fs)
    | .two _ _ => ("Tool error: wrong number of arguments", fs)
  else ("Tool " ++ name ++ " not available", fs)

/-! ## Configuration and the remaining cognitive components -/

/-- `Config.__init__` defaults.  `load_from_file` is file I/O: a loaded
configuration is passed to `ThinkerGOAT.init` as a value. -/
structure Config where
  ai_name : String
  use_tts : Bool
  tts_engine : String
  learning_rate : ℚ
  memory_size : Nat
  tools_enabled : Bool
  max_goals : Nat

def Config.default : Config :=
  { ai_name := "THINKER-GOAT", use_tts := true, tts_engine := "espeak",
    learning_rate := 1/4, memory_size := 1000, tools_enabled := true,
    max_goals := 5 }

structure Consciousness where
  self_awareness : ℚ
  focus : String

def Consciousness.init : Consciousness :=
  { self_awareness := 1/10, focus := "learning" }

/-- `Consciousness.reflect` (not reached from `process_command`; included
for completeness). -/
def Consciousness.reflect (c : Consciousness) (success_rate : Option ℚ) : Consciousness :=
  let sa := min 1 (c.self_awareness + 1/100)
  match success_rate with
  | some r =>
      if r > 7/10 then { self_awareness := sa, focus := "advanced" }
      else if r < 3/10 then { self_awareness := sa, focus := "fundamentals" }
      else { self_awareness := sa, focus := "practice" }
  | none => { self_awareness := sa, focus := "practice" }

/-! ## ThinkerGOAT: session state and the command dispatcher -/

/-- The mutable state a `ThinkerGOAT` instance owns, plus the file-system
boundary its file tools touch.  (The TTS engine is a fire-and-forget output
sink and carries no state the dispatcher reads.) -/
structure AIState where
  config : Config
  memory : VectorMemory
  goals : GoalSystem
  feelings : FeelingEngine
  consciousness : Consciousness
  learning_episodes : Nat
  fs : FileSys

/-- `ThinkerGOAT.__init__` with a loaded configuration.  Note: `self.goals
= GoalSystem()` — the configured `max_goals` is never passed to the goal
tracker, which keeps its hard-coded limit of 5. -/
def ThinkerGOAT.init (cfg : Config) (fs : FileSys) : AIState :=
  { config := cfg, memory := VectorMemory.init, goals := GoalSystem.init,
    feelings := FeelingEngine.init, consciousness := Consciousness.init,
    learning_episodes := 0, fs := fs }

/-- The ambient inputs one `process_command` call can consume: the current
time, the random draws, and the outcome of the external `exec` boundary. -/
structure PyRand where
  now : String
  pick : Nat
  roll : ℚ
  rtime : Nat
  execOutcome : Except String Unit

/-- What a Python call to `process_command` can do: return a string, fall
off the function body (returning `None`), or raise. -/
inductive PyResult
  | str (s : String)
  | retNone
  | exn (msg : String)
deriving DecidableEq

/-- `ThinkerGOAT.learn_code_writing`: pick a practice problem, flip a
biased coin, react. -/
def learn_code_writing (st : AIState) (o : PyRand) : String × AIState :=
  let problems := ["Write a function to calculate factorial",
    "Create a function that reverses a string",
    "Write a function to check if a number is prime"]
  let problem := problems.getD (o.pick % problems.length) ""
  if o.roll > 3/10 then
    ("✓ Successfully solved: " ++ problem,
      { st with feelings := st.feelings.react (4/5) })
  else
    ("✗ Need more practice with: " ++ problem,
      { st with feelings := st.feelings.react (-(1/2)) })

/-- Serialisation of the logic-puzzle memory dict (`str()` of the dict the
source builds; literal braces written with escapes). -/
def puzzleMemText (puzzle : String) (success : Bool) (ts : String) : String :=
  "\x7b'type': 'logic_puzzle', 'puzzle': '" ++ puzzle ++ "', 'success': "
    ++ (if success then "True" else "False") ++ ", 'timestamp': '" ++ ts ++ "'\x7d"

/-- `ThinkerGOAT.learn_logic_puzzles`: pick a puzzle, flip a biased coin,
store the attempt in memory, react. -/
def learn_logic_puzzles (st : AIState) (o : PyRand) : String × AIState :=
  let puzzles := ["If all humans are mortal and Socrates is human, then Socrates is?",
    "A bat and ball cost $1.10. The bat costs $1.00 more than the ball. How much is the ball?",
    "You have two ropes that each take exactly 60 minutes to burn. How do you measure 45 minutes?"]
  let puzzle := puzzles.getD (o.pick % puzzles.length) ""
  let reasoning_time := 1 + o.rtime % 10
  let success := o.roll > 4/10
  let entry : PyDict := { typ := "logic_puzzle", text := puzzleMemText puzzle success o.now }
  let st := { st with memory := add_memory st.memory entry (if success then 7/10 else 3/10) }
  if success then
    ("✓ Solved puzzle in " ++ toString reasoning_time ++ "s: " ++ puzzle,
      { st with feelings := st.feelings.react (6/10) })
  else
    ("✗ Challenging puzzle: " ++ puzzle ++ " (took " ++ toString reasoning_time ++ "s)",
      { st with feelings := st.feelings.react (-(3/10)) })

/-- Serialisation of the conversation memory dict. -/
def convMemText (msg resp ts mood : String) : String :=
  "\x7b'type': 'conversation', 'user_message': '" ++ msg ++ "', 'ai_response': '"
    ++ resp ++ "', 'timestamp': '" ++ ts ++ "', 'mood': '" ++ mood ++ "'\x7d"

/-- `ThinkerGOAT.have_conversation`: substring-triggered reply sets, a
random choice among them, and a memory record of importance 0.4.  The
`tts.speak` call is an output-only effect and is not modelled. -/
def have_conversation (st : AIState) (o : PyRand) (message : String) : String × AIState :=
  let responses :=
    if containsSub message "hello" || containsSub message "hi" then
      ["Hello! Ready to learn something new?",
       "Hi there! What shall we explore today?",
       "Greetings! I'm feeling curious today."]
    else if containsSub message "how are you" then
      let mood := st.feelings.get_mood
      ["I'm feeling " ++ mood ++ ". My consciousness level is "
          ++ formatQ 2 st.consciousness.self_awareness,
       "Currently " ++ mood ++ ". My learning progress is going well!",
       "State: " ++ mood ++ ". I've completed " ++ toString st.learning_episodes
          ++ " learning episodes."]
    else if containsSub message "learn" then
      ["I love learning! Try 'learn code' or 'learn logic'",
       "Learning is my favorite activity. What domain interests you?",
       "Ready for a learning session! Choose a learning mode."]
    else
      ["That's interesting. Tell me more.",
       "I'm processing that...",
       "Fascinating. Let's explore that further.",
       "My consciousness is analyzing your message...",
       "That sparks my curiosity!"]
  let response := responses.getD (o.pick % responses.length) ""
  let entry : PyDict :=
    { typ := "conversation",
      text := convMemText message response o.now st.feelings.get_mood }
  (response, { st with memory := add_memory st.memory entry (2/5) })

/-- `ThinkerGOAT.get_status`. -/
def get_status (st : AIState) : String :=
  String.intercalate "\n"
    ["🤖 " ++ st.config.ai_name ++ " Status:",
     "📊 Learning Episodes: " ++ toString st.learning_episodes,
     "🎯 Active Goals: " ++ toString st.goals.active_goals.length,
     "💾 Memories: " ++ toString st.memory.memories.length,
     "😊 Mood: " ++ st.feelings.get_mood,
     "🧠 Consciousness: " ++ formatQ 3 st.consciousness.self_awareness,
     "🔧 Tools: 5 available"]

/-- One goal's two display lines in `show_goals`, with the 20-cell progress
bar. -/
def goalLines (g : Goal) : List String :=
  let filled := (g.progress * 20).floor.toNat
  let bar := String.mk (List.replicate filled '█')
    ++ String.mk (List.replicate (20 - filled) '░')
  ["  " ++ toString g.id ++ ". " ++ g.description,
   "     Progress: [" ++ bar ++ "] " ++ formatQ 1 (g.progress * 100) ++ "%"]

/-- `ThinkerGOAT.show_goals`. -/
def show_goals (st : AIState) : String :=
  if st.goals.active_goals = [] then
    "No active goals. Use 'add_goal <description>' to create one."
  else
    String.intercalate "\n"
      (("🎯 Active Goals (" ++ toString st.goals.active_goals.length ++ "):")
        :: (st.goals.active_goals.map goalLines).flatten)

/-- Counts of memory records by `'type'` key, in first-occurrence order
(the iteration order of the `defaultdict`). -/
def typeCounts (ds : List PyDict) : List (String × Nat) :=
  ds.foldl
    (fun acc d =>
      if acc.any (fun p => p.1 = d.typ) then
        acc.map (fun p => if p.1 = d.typ then (p.1, p.2 + 1) else p)
      else acc ++ [(d.typ, 1)])
    []

/-- `ThinkerGOAT.show_memory_stats`. -/
def show_memory_stats (st : AIState) : String :=
  String.intercalate "\n"
    (["💾 Memory Statistics:"]
      ++ (typeCounts st.memory.memories).map
          (fun p => "  " ++ p.1 ++ ": " ++ toString p.2)
      ++ ["  Total: " ++ toString st.memory.memories.length ++ " memories"])

/-- `ThinkerGOAT.show_help`. -/
def show_help (st : AIState) : String :=
  String.intercalate "\n"
    ["🤖 " ++ st.config.ai_name ++ " - Available Commands:",
     "",
     "🔧 TOOLS:",
     "  search <query>        - Search the web",
     "  calculate <expression> - Do math calculations",
     "  write_file <name> <content> - Write to file",
     "  read_file <name>      - Read from file",
     "  run <python_code>     - Execute Python code",
     "",
     "🎯 GOALS:",
     "  add_goal <description> - Add new goal",
     "  progress <id> <value>  - Update goal progress (0.0-1.0)",
     "  goals                 - Show active goals",
     "",
     "📚 LEARNING:",
     "  learn code           - Practice coding",
     "  learn logic          - Solve logic puzzles",
     "  memory               - Show memory stats",
     "",
     "ℹ️  INFO:",
     "  status               - System status",
     "  help                 - This message",
     "",
     "💬 CHAT:",
     "  Just type normally to chat!",
     "",
     "Example: 'search artificial intelligence' or 'calculate 2+2*3'"]

/-- The body of `ThinkerGOAT.process_command` after the initial
`command = command.lower().strip()`, on the normalised command `c`.  Each
`elif` branch mirrors the source, including its slice indices: the
`write_file` branch slices at 10 although its prefix `'write_file '` is 11
characters long, and an `elif` body whose inner `if` fails falls off the
function, returning `None`.  A `ValueError` from `int()`/`float()` in the
`progress` branch is uncaught and becomes `.exn`. -/
def processCore (st : AIState) (o : PyRand) (c : String) : PyResult × AIState :=
  if pyStartsWith c "search " then
    let r := use_tool st.fs o.execOutcome "web_search" (.one (pyDrop c 7))
    (.str r.1, { st with fs := r.2 })
  else if pyStartsWith c "calculate " then
    let r := use_tool st.fs o.execOutcome "calculate" (.one (pyDrop c 10))
    (.str r.1, { st with fs := r.2 })
  else if pyStartsWith c "write_file " then
    match (pySplit1 (pyDrop c 10)).2 with
    | some p1 =>
        let r := use_tool st.fs o.execOutcome "write_file"
          (.two (pySplit1 (pyDrop c 10)).1 p1)
        (.str r.1, { st with fs := r.2 })
    | none => (.retNone, st)
  else if pyStartsWith c "read_file " then
    let r := use_tool st.fs o.execOutcome "read_file" (.one (pyDrop c 9))
    (.str r.1, { st with fs := r.2 })
  else if pyStartsWith c "run " then
    let r := use_tool st.fs o.execOutcome "execute_python" (.one (pyDrop c 4))
    (.str r.1, { st with fs := r.2 })
  else if pyStartsWith c "add_goal " then
    let r := add_goal st.goals (pyDrop c 9) 1 o.now
    (.str r.2, { st with goals := r.1 })
  else if pyStartsWith c "progress " then
    match pySplitWS (pyDrop c 9) with
    | [a, b] =>
        match pyParseInt a with
        | none => (.exn ("invalid literal for int() with base 10: '" ++ a ++ "'"), st)
        | some gid =>
            match pyParseFloat b with
            | none => (.exn ("could not convert string to float: '" ++ b ++ "'"), st)
            | some v =>
                let r := update_progress st.goals o.now gid v
                (.str r.2, { st with goals := r.1 })
    | _ => (.retNone, st)
  else if c = "learn code" then
    let r := learn_code_writing st o
    (.str r.1, r.2)
  else if c = "learn logic" then
    let r := learn_logic_puzzles st o
    (.str r.1, r.2)
  else if c = "status" then (.str (get_status st), st)
  else if c = "goals" then (.str (show_goals st), st)
  else if c = "memory" then (.str (show_memory_stats st), st)
  else if c = "help" then (.str (show_help st), st)
  else
    let r := have_conversation st o c
    (.str r.1, r.2)

/-- `ThinkerGOAT.process_command(command)`. -/
def process_command (st : AIState) (o : PyRand) (command : String) : PyResult × AIState :=
  processCore st o (pyNorm command)

/-! ## Concrete fixtures used by witnesses and counterexamples -/

/-- A goal as `add_goal` builds it, with the given id and description. -/
def mkGoal (i : Int) (d : String) : Goal :=
  { id := i, description := d, priority := 1, created := "t", progress := 0,
    completed := none }

/-- A tracker holding one active goal "write tests" with id 1. -/
def gsWT : GoalSystem :=
  { active_goals := [mkGoal 1 "write tests"], completed_goals := [], max_goals := 5 }

/-- A tracker already holding five active goals (its limit). -/
def gsFive : GoalSystem :=
  { active_goals := [mkGoal 1 "a", mkGoal 2 "b", mkGoal 3 "c", mkGoal 4 "d", mkGoal 5 "e"],
    completed_goals := [], max_goals := 5 }

/-- Ambient inputs for concrete dispatcher runs. -/
def oracle0 : PyRand :=
  { now := "t", pick := 0, roll := 1/2, rtime := 0, execOutcome := .ok () }

def pdFoo : PyDict := { typ := "t", text := "foo" }

def pdBar : PyDict := { typ := "t", text := "bar" }

def pdAlpha : PyDict := { typ := "t", text := "alpha" }

def pdAlphaBeta : PyDict := { typ := "t", text := "alpha beta" }

/-- A store with two distinct records (both of importance 0.5). -/
def vmTieDistinct : VectorMemory :=
  { memories := [pdFoo, pdBar], importance_scores := [1/2, 1/2] }

/-- A store holding the same record twice. -/
def vmTieEqual : VectorMemory :=
  { memories := [pdFoo, pdFoo], importance_scores := [1/2, 1/2] }

/-- A store whose two records score differently for the query
"alpha beta". -/
def vmDistinctScores : VectorMemory :=
  { memories := [pdAlpha, pdAlphaBeta], importance_scores := [1/2, 1/2] }

/-! # Theorems -/

/-! ## Mood bounds (C8) -/

theorem react_in_bounds (fe : FeelingEngine) (r : ℚ) :
    0 ≤ (fe.react r).energy ∧ (fe.react r).energy ≤ 100 ∧
    0 ≤ (fe.react r).curiosity ∧ (fe.react r).curiosity ≤ 1 := by
  refine ⟨le_max_left _ _, max_le (by norm_num) (min_le_left _ _),
    le_max_left _ _, max_le (by norm_num) (min_le_left _ _)⟩

theorem foldl_react_in_bounds (l : List ℚ) (fe : FeelingEngine)
    (h : 0 ≤ fe.energy ∧ fe.energy ≤ 100 ∧ 0 ≤ fe.curiosity ∧ fe.curiosity ≤ 1) :
    0 ≤ (l.foldl FeelingEngine.react fe).energy ∧
    (l.foldl FeelingEngine.react fe).energy ≤ 100 ∧
    0 ≤ (l.foldl FeelingEngine.react fe).curiosity ∧
    (l.foldl FeelingEngine.react fe).curiosity ≤ 1 := by
  induction l generalizing fe with
  | nil => exact h
  | cons r rs ih => exact ih (fe.react r) (react_in_bounds fe r)

/-- C8: over every finite sequence of `react(reward)` calls, whatever the
sign or magnitude of the rewards, energy stays in `[0,100]` and curiosity
in `[0,1]`; and each call stores exactly the clamp of `energy + 2·reward`
and of `curiosity + 0.1·reward`. -/
theorem c8_react_bounds (rewards : List ℚ) :
    (0 ≤ (rewards.foldl FeelingEngine.react FeelingEngine.init).energy ∧
     (rewards.foldl FeelingEngine.react FeelingEngine.init).energy ≤ 100 ∧
     0 ≤ (rewards.foldl FeelingEngine.react FeelingEngine.init).curiosity ∧
     (rewards.foldl FeelingEngine.react FeelingEngine.init).curiosity ≤ 1) ∧
    ∀ (fe : FeelingEngine) (r : ℚ),
      (fe.react r).energy = max 0 (min 100 (fe.energy + 2 * r)) ∧
      (fe.react r).curiosity = max 0 (min 1 (fe.curiosity + (1/10) * r)) := by
  refine ⟨foldl_react_in_bounds rewards FeelingEngine.init (by norm_num [FeelingEngine.init]),
    fun fe r => ⟨rfl, rfl⟩⟩

/-! ## Goal tracker: adding goals (C2) -/

/-- C2: while the active count is below the tracker's maximum, `add_goal`
succeeds and grows the active list by exactly one; at the maximum it fails
with the limit message and returns the state unchanged. -/
theorem c2_add_goal (gs : GoalSystem) (d : String) (pr : Int) (now : String) :
    (gs.active_goals.length < gs.max_goals →
      (add_goal gs d pr now).2 = "Goal added: " ++ d ∧
      (add_goal gs d pr now).1.active_goals.length = gs.active_goals.length + 1) ∧
    (gs.active_goals.length = gs.max_goals →
      add_goal gs d pr now = (gs, "Cannot add more goals - limit reached")) := by
  constructor
  · intro h
    rw [add_goal, if_neg (by omega)]
    simp
  · intro h
    rw [add_goal, if_pos (by omega)]

/-- Witness for C2 at concrete states: an empty tracker accepts a goal and
ends with one active goal; a tracker already holding five goals rejects it
unchanged. -/
theorem c2_witness :
    ((add_goal GoalSystem.init "x" 1 "t").2 = "Goal added: x" ∧
      (add_goal GoalSystem.init "x" 1 "t").1.active_goals.length = 0 + 1) ∧
    add_goal gsFive "y" 1 "t" = (gsFive, "Cannot add more goals - limit reached") := by
  exact ⟨(c2_add_goal GoalSystem.init "x" 1 "t").1 (by decide),
    (c2_add_goal gsFive "y" 1 "t").2 (by decide)⟩

/-! ## Goal tracker: id assignment (C6) -/

/-- C6: goal ids are computed as `len(active_goals) + 1`, so ids are reused
once a goal leaves the active list.  After `add "a"; add "b"; complete 1;
add "c"` the two active goals both carry id 2 — a fresh-id discipline would
have given "c" the id 3. -/
theorem c6_id_reuse_exhibit :
    ((applyOps GoalSystem.init
        [.addG "a" 1 "t1", .addG "b" 1 "t2", .completeG 1 "t3",
         .addG "c" 1 "t4"]).active_goals.map Goal.id) = [2, 2] ∧
    ((applyOps GoalSystem.init
        [.addG "a" 1 "t1", .addG "b" 1 "t2", .completeG 1 "t3",
         .addG "c" 1 "t4"]).completed_goals.map Goal.id) = [1] := by
  decide

/-! ## Goal tracker: first-match loop lemmas (C1) -/

theorem updateLoop_length (gid : Int) (p : ℚ) :
    ∀ (l : List Goal) (q : List Goal × ℚ), updateLoop gid p l = some q →
      q.1.length = l.length := by
  intro l
  induction l with
  | nil => intro q h; simp [updateLoop] at h
  | cons g gs ih =>
      intro q h
      rw [updateLoop] at h
      split at h
      · cases h; simp
      · cases hrec : updateLoop gid p gs with
        | none => rw [hrec] at h; cases h
        | some q' =>
            rw [hrec] at h
            cases h
            simpa using ih q' hrec

theorem completeLoop_length (gid : Int) :
    ∀ (l : List Goal) (q : List Goal × Goal), completeLoop gid l = some q →
      q.1.length + 1 = l.length := by
  intro l
  induction l with
  | nil => intro q h; simp [completeLoop] at h
  | cons g gs ih =>
      intro q h
      rw [completeLoop] at h
      split at h
      · cases h; simp
      · cases hrec : completeLoop gid gs with
        | none => rw [hrec] at h; cases h
        | some q' =>
            rw [hrec] at h
            cases h
            have := ih q' hrec
            simpa using by omega

theorem updateLoop_skip (gid : Int) (p : ℚ) (g : Goal) (l₂ : List Goal) :
    ∀ l₁ : List Goal, g.id = gid → (∀ x ∈ l₁, x.id ≠ gid) →
      updateLoop gid p (l₁ ++ g :: l₂) =
        some (l₁ ++ ({ g with progress := max 0 (min 1 p) }) :: l₂, max 0 (min 1 p)) := by
  intro l₁
  induction l₁ with
  | nil => intro hid _; simp [updateLoop, hid]
  | cons x l₁ ih =>
      intro hid hne
      have hx : x.id ≠ gid := hne x (by simp)
      rw [List.cons_append, updateLoop, if_neg hx, ih hid (fun y hy => hne y (by simp [hy]))]
      rfl

theorem completeLoop_skip (gid : Int) (g : Goal) (l₂ : List Goal) :
    ∀ l₁ : List Goal, g.id = gid → (∀ x ∈ l₁, x.id ≠ gid) →
      completeLoop gid (l₁ ++ g :: l₂) = some (l₁ ++ l₂, g) := by
  intro l₁
  induction l₁ with
  | nil => intro hid _; simp [completeLoop, hid]
  | cons x l₁ ih =>
      intro hid hne
      have hx : x.id ≠ gid := hne x (by simp)
      rw [List.cons_append, completeLoop, if_neg hx, ih hid (fun y hy => hne y (by simp [hy]))]
      rfl

theorem completeLoop_none (gid : Int) :
    ∀ l : List Goal, (∀ x ∈ l, x.id ≠ gid) → completeLoop gid l = none := by
  intro l
  induction l with
  | nil => intro _; rfl
  | cons x l ih =>
      intro hne
      rw [completeLoop, if_neg (hne x (by simp)), ih (fun y hy => hne y (by simp [hy]))]

theorem complete_goal_found (gs : GoalSystem) (l₁ l₂ : List Goal) (g : Goal)
    (gid : Int) (now : String)
    (hsplit : gs.active_goals = l₁ ++ g :: l₂) (hid : g.id = gid)
    (h₁ : ∀ x ∈ l₁, x.id ≠ gid) :
    complete_goal gs now gid =
      (GoalSystem.mk (l₁ ++ l₂)
        (gs.completed_goals ++ [{ g with completed := some now }]) gs.max_goals,
        "Goal completed: " ++ g.description) := by
  rw [complete_goal, hsplit, completeLoop_skip gid g l₂ l₁ hid h₁]

theorem complete_goal_notfound (gs : GoalSystem) (gid : Int) (now : String)
    (h : ∀ x ∈ gs.active_goals, x.id ≠ gid) :
    complete_goal gs now gid = (gs, "Goal not found") := by
  rw [complete_goal, completeLoop_none gid gs.active_goals h]

/-- C1 (amended: the hypothesis that `gid` identifies exactly one active
goal is required, since ids can repeat — see `c1_counterexample`): for any
progress value `p`, `update_progress` stores `clamp(p, 0, 1)` into the
goal; when the clamped value reaches 1.0 the goal is moved — not copied —
from the active to the completed list, exactly once, and a subsequent
`complete_goal` for the same id fails with the `"Goal not found"` message
leaving the state unchanged. -/
theorem c1_update_progress_unique (gs : GoalSystem) (l₁ l₂ : List Goal) (g : Goal)
    (gid : Int) (p : ℚ) (now now2 : String)
    (hsplit : gs.active_goals = l₁ ++ g :: l₂) (hid : g.id = gid)
    (h₁ : ∀ x ∈ l₁, x.id ≠ gid) (h₂ : ∀ x ∈ l₂, x.id ≠ gid) :
    (update_progress gs now gid p).2 = "Progress updated for goal " ++ toString gid ∧
    (1 ≤ p →
      (update_progress gs now gid p).1.active_goals = l₁ ++ l₂ ∧
      (update_progress gs now gid p).1.completed_goals =
        gs.completed_goals ++ [{ g with progress := 1, completed := some now }] ∧
      complete_goal (update_progress gs now gid p).1 now2 gid =
        ((update_progress gs now gid p).1, "Goal not found")) ∧
    (p < 1 →
      (update_progress gs now gid p).1.active_goals =
        l₁ ++ ({ g with progress := max 0 (min 1 p) }) :: l₂ ∧
      (update_progress gs now gid p).1.completed_goals = gs.completed_goals) := by
  have hloop := updateLoop_skip gid p g l₂ l₁ hid h₁
  refine ⟨?_, ?_, ?_⟩
  · simp only [update_progress, hsplit, hloop]
  · intro hp
    have hv : max 0 (min 1 p) = 1 := by
      rw [min_eq_left hp, max_eq_right (by norm_num)]
    have hres : update_progress gs now gid p =
        (GoalSystem.mk (l₁ ++ l₂)
          (gs.completed_goals ++ [{ g with progress := 1, completed := some now }])
          gs.max_goals,
          "Progress updated for goal " ++ toString gid) := by
      simp only [update_progress, hsplit, hloop, hv, if_pos (le_refl (1 : ℚ))]
      rw [complete_goal_found _ l₁ l₂ ({ g with progress := 1 }) gid now rfl hid h₁]
    rw [hres]
    refine ⟨rfl, rfl, ?_⟩
    exact complete_goal_notfound _ gid now2
      (fun x hx => ((List.mem_append.mp hx).elim (h₁ x) (h₂ x)))
  · intro hp
    have hv : ¬ (1 : ℚ) ≤ max 0 (min 1 p) := by
      rw [min_eq_right (le_of_lt hp)]
      exact not_le.mpr (max_lt (by norm_num) hp)
    simp only [update_progress, hsplit, hloop, if_neg hv]
    simp

/-- Witness for C1 at a concrete tracker holding the single goal
"write tests" with id 1: `update_progress(1, 1.2)` clamps to 1.0, moves the
goal to the completed list, and a second completion attempt for id 1 fails
with `"Goal not found"`. -/
theorem c1_witness :
    (update_progress gsWT "t1" 1 (6/5)).1.active_goals = [] ∧
    (update_progress gsWT "t1" 1 (6/5)).1.completed_goals =
      [{ mkGoal 1 "write tests" with progress := 1, completed := some "t1" }] ∧
    complete_goal (update_progress gsWT "t1" 1 (6/5)).1 "t2" 1 =
      ((update_progress gsWT "t1" 1 (6/5)).1, "Goal not found") := by
  have h := (c1_update_progress_unique gsWT [] [] (mkGoal 1 "write tests")
    1 (6/5) "t1" "t2" rfl rfl (by simp) (by simp)).2.1 (by norm_num)
  exact ⟨by simpa using h.1, by simpa using h.2.1, h.2.2⟩

/-! ## Sorting the scored memories (C3, C9) -/

theorem tupLt_ok_true (a b : SM) (h : tupLt a b = .ok true) : a.1 < b.1 := by
  rw [tupLt] at h
  split at h
  · split at h <;> cases h
  · have hd : decide (a.1 < b.1) = true := by injection h
    exact of_decide_eq_true hd

theorem tupLt_ok_false (a b : SM) (h : tupLt a b = .ok false) : smR a b := by
  rw [tupLt] at h
  split at h
  · split at h
    · next h1 h2 => exact Or.inr (Prod.ext h1 h2)
    · cases h
  · next h1 =>
      have : ¬ a.1 < b.1 := by
        intro hlt
        rw [decide_eq_true hlt] at h
        cases h
      exact Or.inl (lt_of_le_of_ne (not_lt.mp this) (Ne.symm h1))

theorem mergeF_ok_perm :
    ∀ (fuel : Nat) (l₁ l₂ m : List SM), mergeF fuel l₁ l₂ = .ok m → m.Perm (l₁ ++ l₂) := by
  intro fuel
  induction fuel with
  | zero =>
      intro l₁ l₂ m h
      match l₁, l₂, h with
      | [], ys, h => cases h; exact List.Perm.refl _
      | x :: xs, [], h => cases h; simp
      | x :: xs, y :: ys, h => cases h; exact List.Perm.refl _
  | succ fuel ih =>
      intro l₁ l₂ m h
      match l₁, l₂, h with
      | [], ys, h => cases h; exact List.Perm.refl _
      | x :: xs, [], h => cases h; simp
      | x :: xs, y :: ys, h =>
          rw [mergeF] at h
          cases ht : tupLt x y with
          | error e => rw [ht] at h; cases h
          | ok bv =>
              rw [ht] at h
              cases bv with
              | true =>
                  cases hrec : mergeF fuel (x :: xs) ys with
                  | error e => rw [hrec] at h; cases h
                  | ok r =>
                      rw [hrec] at h
                      cases h
                      exact ((ih _ _ _ hrec).cons y).trans List.perm_middle.symm
              | false =>
                  cases hrec : mergeF fuel xs (y :: ys) with
                  | error e => rw [hrec] at h; cases h
                  | ok r =>
                      rw [hrec] at h
                      cases h
                      simpa using (ih _ _ _ hrec).cons x

theorem mergeF_ok_pairwise :
    ∀ (fuel : Nat) (l₁ l₂ m : List SM), mergeF fuel l₁ l₂ = .ok m →
      l₁.length + l₂.length ≤ fuel →
      l₁.Pairwise smR → l₂.Pairwise smR → m.Pairwise smR := by
  intro fuel
  induction fuel with
  | zero =>
      intro l₁ l₂ m h hlen h₁ h₂
      match l₁, l₂, h with
      | [], ys, h => cases h; exact h₂
      | x :: xs, [], h => cases h; exact h₁
      | x :: xs, y :: ys, h => simp at hlen
  | succ fuel ih =>
      intro l₁ l₂ m h hlen h₁ h₂
      match l₁, l₂, h with
      | [], ys, h => cases h; exact h₂
      | x :: xs, [], h => cases h; exact h₁
      | x :: xs, y :: ys, h =>
          rw [mergeF] at h
          cases ht : tupLt x y with
          | error e => rw [ht] at h; cases h
          | ok bv =>
              rw [ht] at h
              cases bv with
              | true =>
                  cases hrec : mergeF fuel (x :: xs) ys with
                  | error e => rw [hrec] at h; cases h
                  | ok r =>
                      rw [hrec] at h
                      cases h
                      have hxy : x.1 < y.1 := tupLt_ok_true x y ht
                      have hr : r.Pairwise smR :=
                        ih _ _ _ hrec (by simp at hlen ⊢; omega) h₁ h₂.tail
                      refine List.Pairwise.cons ?_ hr
                      intro z hz
                      have hz' : z ∈ (x :: xs) ++ ys := (mergeF_ok_perm _ _ _ _ hrec).subset hz
                      rcases List.mem_append.mp hz' with hz1 | hz2
                      · rcases List.mem_cons.mp hz1 with rfl | hzx
                        · exact Or.inl hxy
                        · rcases List.rel_of_pairwise_cons h₁ hzx with hlt | rfl
                          · exact Or.inl (hlt.trans hxy)
                          · exact Or.inl hxy
                      · exact List.rel_of_pairwise_cons h₂ hz2
              | false =>
                  cases hrec : mergeF fuel xs (y :: ys) with
                  | error e => rw [hrec] at h; cases h
                  | ok r =>
                      rw [hrec] at h
                      cases h
                      have hxy : smR x y := tupLt_ok_false x y ht
                      have hr : r.Pairwise smR :=
                        ih _ _ _ hrec (by simp at hlen ⊢; omega) h₁.tail h₂
                      refine List.Pairwise.cons ?_ hr
                      intro z hz
                      have hz' : z ∈ xs ++ (y :: ys) := (mergeF_ok_perm _ _ _ _ hrec).subset hz
                      rcases List.mem_append.mp hz' with hz1 | hz2
                      · exact List.rel_of_pairwise_cons h₁ hz1
                      · rcases List.mem_cons.mp hz2 with rfl | hzy
                        · exact hxy
                        · rcases List.rel_of_pairwise_cons h₂ hzy with hlt | rfl
                          · rcases hxy with hyx | rfl
                            · exact Or.inl (hlt.trans hyx)
                            · exact Or.inl hlt
                          · exact hxy

theorem msortF_ok_perm :
    ∀ (fuel : Nat) (l m : List SM), msortF fuel l = .ok m → m.Perm l := by
  intro fuel
  induction fuel with
  | zero =>
      intro l m h
      match l, h with
      | [], h => cases h; exact List.Perm.refl _
      | [a], h => cases h; exact List.Perm.refl _
      | a :: b :: rest, h => cases h; exact List.Perm.refl _
  | succ fuel ih =>
      intro l m h
      match l, h with
      | [], h => cases h; exact List.Perm.refl _
      | [a], h => cases h; exact List.Perm.refl _
      | a :: b :: rest, h =>
          simp only [msortF] at h
          cases h₁ : msortF fuel ((a :: b :: rest).take ((a :: b :: rest).length / 2)) with
          | error e => rw [h₁] at h; cases h
          | ok x =>
              cases h₂ : msortF fuel ((a :: b :: rest).drop ((a :: b :: rest).length / 2)) with
              | error e => rw [h₁, h₂] at h; cases h
              | ok y =>
                  rw [h₁, h₂] at h
                  have hm := mergeF_ok_perm _ _ _ _ h
                  exact hm.trans (((ih _ _ h₁).append (ih _ _ h₂)).trans
                    (by rw [List.take_append_drop]))

theorem msortF_ok_pairwise :
    ∀ (fuel : Nat) (l m : List SM), msortF fuel l = .ok m → l.length ≤ fuel →
      m.Pairwise smR := by
  intro fuel
  induction fuel with
  | zero =>
      intro l m h hlen
      match l, h, hlen with
      | [], h, _ => cases h; exact List.Pairwise.nil
      | [a], h, hlen => simp at hlen
  | succ fuel ih =>
      intro l m h hlen
      match l, h with
      | [], h => cases h; exact List.Pairwise.nil
      | [a], h => cases h; exact List.pairwise_singleton _ _
      | a :: b :: rest, h =>
          simp only [msortF] at h
          cases h₁ : msortF fuel ((a :: b :: rest).take ((a :: b :: rest).length / 2)) with
          | error e => rw [h₁] at h; cases h
          | ok x =>
              cases h₂ : msortF fuel ((a :: b :: rest).drop ((a :: b :: rest).length / 2)) with
              | error e => rw [h₁, h₂] at h; cases h
              | ok y =>
                  rw [h₁, h₂] at h
                  have hlen' : (a :: b :: rest).length ≤ fuel + 1 := hlen
                  have htk : ((a :: b :: rest).take ((a :: b :: rest).length / 2)).length ≤ fuel := by
                    simp only [List.length_take]
                    simp only [List.length_cons] at hlen' ⊢
                    omega
                  have hdr : ((a :: b :: rest).drop ((a :: b :: rest).length / 2)).length ≤ fuel := by
                    simp only [List.length_drop]
                    simp only [List.length_cons] at hlen' ⊢
                    omega
                  exact mergeF_ok_pairwise _ _ _ _ h le_rfl (ih _ _ h₁ htk) (ih _ _ h₂ hdr)

theorem msortD_ok (l r : List SM) (h : msortD l = .ok r) :
    r.Perm l ∧ r.Pairwise smR := by
  exact ⟨msortF_ok_perm _ _ _ h, msortF_ok_pairwise _ _ _ h le_rfl⟩

/-- C3: whenever `search_similar` returns (see C9 for when it does not),
the scored result holds at most `top_k` entries, sorted by descending
score, every entry's score is positive, and every entry is one of the
stored records scored as (number of lowercase query words occurring in the
record's serialized text) × (1 + importance); `search_similar` itself
returns exactly these records. -/
theorem c3_search_similar_ok (vm : VectorMemory) (q : String) (k : Nat) (ps : List SM)
    (h : search_similar_pairs vm q k = .ok ps) :
    ps.length ≤ k ∧
    ps.Pairwise (fun a b => b.1 ≤ a.1) ∧
    (∀ p ∈ ps, 0 < p.1) ∧
    (∀ p ∈ ps, ∃ d imp, (d, imp) ∈ vm.memories.zip vm.importance_scores ∧
        p = (scoreOfMem q d imp, d)) ∧
    search_similar vm q k = .ok (ps.map Prod.snd) := by
  have h0 := h
  rw [search_similar_pairs] at h
  cases hs : msortD (scoredList vm q) with
  | error e => rw [hs] at h; cases h
  | ok sorted =>
      rw [hs] at h
      obtain ⟨hperm, hpw⟩ := msortD_ok _ _ hs
      have hps : ps = (sorted.take k).filter (fun p => decide (0 < p.1)) := by
        injection h with h'
        exact h'.symm
      subst hps
      have hsub : ((sorted.take k).filter (fun p => decide (0 < p.1))).Sublist sorted :=
        (List.filter_sublist _).trans (List.take_sublist _ _)
      refine ⟨?_, ?_, ?_, ?_, ?_⟩
      · exact le_trans (List.length_filter_le _ _) (List.length_take_le _ _)
      · exact (hpw.sublist hsub).imp
          (fun hab => hab.elim le_of_lt (fun e => le_of_eq (congrArg Prod.fst e.symm)))
      · intro p hp
        exact of_decide_eq_true (List.mem_filter.mp hp).2
      · intro p hp
        have hmem : p ∈ scoredList vm q := hperm.subset (hsub.subset hp)
        rw [scoredList] at hmem
        obtain ⟨pr, hpr, hpe⟩ := List.mem_map.mp hmem
        exact ⟨pr.1, pr.2, hpr, hpe.symm⟩
      · simp only [search_similar, h0]

/-- C9 (amended: the two equally-scored records must additionally be
distinct, since fully equal tuples compare without touching the dicts —
see `c9_counterexample`): whenever the store holds two distinct records
whose computed scores for the query are equal, sorting the
`(score, memory)` tuples compares the two memory dicts, which Python does
not support, and `search_similar` raises an uncaught `TypeError` instead
of returning. -/
theorem c9_tie_raises (vm : VectorMemory) (q : String) (k : Nat) (a b : SM)
    (ha : a ∈ scoredList vm q) (hb : b ∈ scoredList vm q)
    (heq : a.1 = b.1) (hne : a ≠ b) :
    search_similar_pairs vm q k = .error () ∧ search_similar vm q k = .error () := by
  have hs : msortD (scoredList vm q) = .error () := by
    cases hs : msortD (scoredList vm q) with
    | error e => cases e; rfl
    | ok r =>
        exfalso
        obtain ⟨hperm, hpw⟩ := msortD_ok _ _ hs
        have ha' : a ∈ r := hperm.mem_iff.mpr ha
        have hb' : b ∈ r := hperm.mem_iff.mpr hb
        have hsym : Symmetric (fun x y : SM => smR x y ∨ smR y x) := fun x y hxy => hxy.symm
        have hall := (hpw.imp (fun hxy => Or.inl hxy)).forall hsym
        rcases hall ha' hb' hne with h1 | h2
        · rcases h1 with hlt | e
          · rw [heq] at hlt; exact lt_irrefl _ hlt
          · exact hne e
        · rcases h2 with hlt | e
          · rw [heq] at hlt; exact lt_irrefl _ hlt
          · exact hne e.symm
  exact ⟨by simp only [search_similar_pairs, hs],
    by simp only [search_similar, search_similar_pairs, hs]⟩

/-- Witness for C9: the store holding the two distinct records "foo" and
"bar", queried with "zzz", scores both 0 — and the search raises instead
of returning. -/
theorem c9_witness :
    ((0 : ℚ), pdFoo) ∈ scoredList vmTieDistinct "zzz" ∧
    ((0 : ℚ), pdBar) ∈ scoredList vmTieDistinct "zzz" ∧
    search_similar vmTieDistinct "zzz" 5 = .error () := by
  have h := c9_tie_raises vmTieDistinct "zzz" 5 ((0 : ℚ), pdFoo) ((0 : ℚ), pdBar)
    (by with_unfolding_all decide) (by with_unfolding_all decide) rfl (by decide)
  exact ⟨by with_unfolding_all decide, by with_unfolding_all decide, h.2⟩

/-- C9 counterexample to the claim as stated: a store can hold two records
with equal computed scores and still be sorted without error, because
tuples that are fully equal (the same record stored twice) are compared
via `==` only.  Here both records score 0, yet `search_similar` returns
normally. -/
theorem c9_counterexample :
    vmTieEqual.memories.length = 2 ∧
    (scoredList vmTieEqual "zzz").map Prod.fst = [0, 0] ∧
    search_similar vmTieEqual "zzz" 5 = .ok [] := by
  with_unfolding_all decide

/-! ## The calculate tool (C4) -/

/-- C4 counterexample to the claim as stated: an expression containing the
foreign token `a` is not rejected — the filter silently deletes the `a`
and the remainder is evaluated, returning a successful calculation
result. -/
theorem c4_counterexample :
    calculate "2+2a" = "Calculation: 2+2a = 4" ∧
    calcEval (calcFilter "2+2a") = .ok 4 := by
  with_unfolding_all decide

/-- C4 (amended: `calculate("2+2*3")` does return a string containing 8,
but foreign tokens are never rejected as such — every character outside
`[0-9+\-*/(). ]` is deleted and the remainder is always evaluated;
`"import os"` produces an error string only because its remainder `" "`
fails to parse). -/
theorem c4_calculate_amended :
    calculate "2+2*3" = "Calculation: 2+2*3 = 8" ∧
    containsSub (calculate "2+2*3") "8" = true ∧
    calcEval (calcFilter "import os") = .error .syntaxErr ∧
    calculate "import os" = "Calculation error: " ++ CalcErr.syntaxErr.msg ∧
    (∀ e : String, (calcFilter e).data.all calcAllowed = true) ∧
    (∀ e : String, calculate e =
      match calcEval (calcFilter e) with
      | .ok v => "Calculation: " ++ e ++ " = " ++ calcRender v
      | .error err => "Calculation error: " ++ err.msg) := by
  refine ⟨by with_unfolding_all decide, by with_unfolding_all decide,
    by decide, by decide, ?_, fun e => rfl⟩
  intro e
  refine List.all_eq_true.mpr ?_
  intro x hx
  exact (List.mem_filter.mp hx).2

/-- Witness for C3: on the store whose records score 3 and 3/2 for the
query "alpha beta", the search succeeds and every verified property holds
at the concrete output. -/
theorem c3_witness :
    (([((3 : ℚ), pdAlphaBeta), (3/2, pdAlpha)] : List SM).length ≤ 5) ∧
    (∀ p ∈ ([((3 : ℚ), pdAlphaBeta), (3/2, pdAlpha)] : List SM), 0 < p.1) ∧
    search_similar vmDistinctScores "alpha beta" 5 = .ok [pdAlphaBeta, pdAlpha] := by
  have h := c3_search_similar_ok vmDistinctScores "alpha beta" 5
    [((3 : ℚ), pdAlphaBeta), (3/2, pdAlpha)] (by with_unfolding_all decide)
  exact ⟨h.1, h.2.2.1, by simpa using h.2.2.2.2⟩

/-! ## Goal-count invariant (C7) -/

theorem applyOp_max_goals (gs : GoalSystem) (op : GoalOp) :
    (applyOp gs op).max_goals = gs.max_goals := by
  cases op with
  | addG d pr n =>
      simp only [applyOp, add_goal]
      split <;> rfl
  | updateG gid p n =>
      simp only [applyOp, update_progress]
      cases h : updateLoop gid p gs.active_goals with
      | none => rfl
      | some q =>
          simp only []
          split
          · simp only [complete_goal]
            cases completeLoop gid q.1 <;> rfl
          · rfl
  | completeG gid n =>
      simp only [applyOp, complete_goal]
      cases completeLoop gid gs.active_goals <;> rfl

theorem complete_len_le (gs : GoalSystem) (now : String) (gid : Int) :
    (complete_goal gs now gid).1.active_goals.length ≤ gs.active_goals.length := by
  rw [complete_goal]
  cases h : completeLoop gid gs.active_goals with
  | none => simp
  | some q =>
      have := completeLoop_length gid gs.active_goals q h
      simp only []
      omega

theorem applyOp_len_le (gs : GoalSystem) (op : GoalOp)
    (h : gs.active_goals.length ≤ gs.max_goals) :
    (applyOp gs op).active_goals.length ≤ gs.max_goals := by
  cases op with
  | addG d pr n =>
      simp only [applyOp, add_goal]
      split
      · exact h
      · simp only [List.length_append, List.length_cons, List.length_nil]
        omega
  | updateG gid p n =>
      simp only [applyOp, update_progress]
      cases hu : updateLoop gid p gs.active_goals with
      | none => exact h
      | some q =>
          have hlen := updateLoop_length gid p gs.active_goals q hu
          simp only []
          split
          · calc (complete_goal { gs with active_goals := q.1 } n gid).1.active_goals.length
                  ≤ q.1.length := complete_len_le _ n gid
              _ ≤ gs.max_goals := by omega
          · simp only []
            omega
  | completeG gid n =>
      exact le_trans (complete_len_le gs n gid) h

theorem applyOps_len_le (ops : List GoalOp) :
    ∀ gs : GoalSystem, gs.active_goals.length ≤ gs.max_goals →
      (applyOps gs ops).active_goals.length ≤ (applyOps gs ops).max_goals ∧
      (applyOps gs ops).max_goals = gs.max_goals := by
  induction ops with
  | nil => intro gs h; exact ⟨h, rfl⟩
  | cons op ops ih =>
      intro gs h
      have h1 := applyOp_len_le gs op h
      have h2 := applyOp_max_goals gs op
      have := ih (applyOp gs op) (by omega)
      refine ⟨(by simpa [applyOps] using this.1), ?_⟩
      simp only [applyOps, List.foldl_cons] at this ⊢
      omega

/-- C7 (amended: the bound actually enforced is the `GoalSystem`'s own
hard-coded `max_goals = 5`, not the configured `maxGoals`): for every
loaded configuration and every sequence of goal operations, the tracker a
`ThinkerGOAT` instance builds never holds more than 5 active goals. -/
theorem c7_hardcoded_bound (cfg : Config) (fs : FileSys) (ops : List GoalOp) :
    (applyOps (ThinkerGOAT.init cfg fs).goals ops).active_goals.length ≤ 5 ∧
    (ThinkerGOAT.init cfg fs).goals.max_goals = 5 := by
  have h := applyOps_len_le ops (ThinkerGOAT.init cfg fs).goals (by simp [ThinkerGOAT.init, GoalSystem.init])
  have h5 : (ThinkerGOAT.init cfg fs).goals.max_goals = 5 := rfl
  exact ⟨by omega, h5⟩

/-- C7 counterexample to the claim as stated: `GoalSystem.__init__` never
reads the configuration, so with `maxGoals` loaded as 3 the tracker still
accepts a fourth goal — the configured maximum is not the bound
enforced. -/
theorem c7_counterexample :
    ({ Config.default with max_goals := 3 } : Config).max_goals = 3 ∧
    (applyOps (ThinkerGOAT.init { Config.default with max_goals := 3 } []).goals
        [.addG "a" 1 "t1", .addG "b" 1 "t2", .addG "c" 1 "t3",
         .addG "d" 1 "t4"]).active_goals.length = 4 := by
  exact ⟨rfl, by decide⟩

/-- C1 counterexample to the claim as stated: ids repeat (see C6), so "a
second completion attempt for the same id fails" is false.  After
`add a; add b; add c; complete 1; add d` the goals "c" and "d" both carry
id 3; `update_progress(3, 1.0)` completes "c", and the second completion
attempt for id 3 succeeds on "d" instead of failing with `GoalNotFound`. -/
theorem c1_counterexample :
    (complete_goal
        (applyOps GoalSystem.init
          [.addG "a" 1 "t1", .addG "b" 1 "t2", .addG "c" 1 "t3",
           .completeG 1 "t4", .addG "d" 1 "t5", .updateG 3 1 "t6"]) "t7" 3).2 =
      "Goal completed: d" ∧
    (complete_goal
        (applyOps GoalSystem.init
          [.addG "a" 1 "t1", .addG "b" 1 "t2", .addG "c" 1 "t3",
           .completeG 1 "t4", .addG "d" 1 "t5", .updateG 3 1 "t6"]) "t7" 3).2 ≠
      "Goal not found" := by
  decide

/-! ## Dispatcher totality (C5) -/

/-- C5 counterexample to the claim as stated: the `progress` branch calls
`int(parts[0])` and `float(parts[1])` outside any handler, so a
non-numeric value raises an uncaught `ValueError` that escapes
`process_command` into the session loop instead of becoming a string. -/
theorem c5_counterexample :
    (process_command (ThinkerGOAT.init Config.default []) oracle0 "progress 1 abc").1 =
      PyResult.exn "could not convert string to float: 'abc'" := by
  decide

theorem isPrefixL_exists :
    ∀ (xs ys : List Char), isPrefixL xs ys = true → ∃ zs, ys = xs ++ zs := by
  intro xs
  induction xs with
  | nil => intro ys _; exact ⟨ys, rfl⟩
  | cons a as ih =>
      intro ys h
      cases ys with
      | nil => cases h
      | cons b bs =>
          rw [isPrefixL, Bool.and_eq_true] at h
          obtain ⟨zs, hz⟩ := ih bs h.2
          exact ⟨zs, by rw [hz, eq_of_beq h.1]; rfl⟩

/-- A command matching the `write_file ` prefix always splits into two
parts: `command[10:]` begins with the separating space itself. -/
theorem write_file_split_some (c : String) (h : pyStartsWith c "write_file " = true) :
    ∃ z, (pySplit1 (pyDrop c 10)).2 = some z := by
  obtain ⟨zs, hz⟩ := isPrefixL_exists _ _ h
  have hdrop : c.data.drop 10 = ' ' :: zs := by rw [hz]; rfl
  refine ⟨⟨zs⟩, ?_⟩
  rw [pySplit1, pyDrop, hdrop]
  rfl

/-- C5 (amended: every command produces a string result — all tool and
goal errors included — except a `progress` command, where a remainder that
does not split into exactly two words silently returns `None`, and one
whose two words fail integer/float parsing raises an uncaught exception
into the session loop). -/
theorem c5_amended (st : AIState) (o : PyRand) (cmd : String) :
    (∃ s, (process_command st o cmd).1 = PyResult.str s) ∨
    (pyStartsWith (pyNorm cmd) "progress " = true ∧
      (((pySplitWS (pyDrop (pyNorm cmd) 9)).length ≠ 2 ∧
          (process_command st o cmd).1 = PyResult.retNone) ∨
        ((pySplitWS (pyDrop (pyNorm cmd) 9)).length = 2 ∧
          ∃ m, (process_command st o cmd).1 = PyResult.exn m))) := by
  obtain ⟨⟨r, st2⟩, hr⟩ : ∃ pr, pr = process_command st o cmd := ⟨_, rfl⟩
  rw [← hr]
  rw [process_command] at hr
  delta processCore at hr
  by_cases h1 : pyStartsWith (pyNorm cmd) "search " = true
  · rw [if_pos h1] at hr
    exact Or.inl ⟨_, congrArg Prod.fst hr⟩
  rw [if_neg h1] at hr
  by_cases h2 : pyStartsWith (pyNorm cmd) "calculate " = true
  · rw [if_pos h2] at hr
    exact Or.inl ⟨_, congrArg Prod.fst hr⟩
  rw [if_neg h2] at hr
  by_cases h3 : pyStartsWith (pyNorm cmd) "write_file " = true
  · rw [if_pos h3] at hr
    obtain ⟨z, hz⟩ := write_file_split_some _ h3
    rw [hz] at hr
    exact Or.inl ⟨_, congrArg Prod.fst hr⟩
  rw [if_neg h3] at hr
  by_cases h4 : pyStartsWith (pyNorm cmd) "read_file " = true
  · rw [if_pos h4] at hr
    exact Or.inl ⟨_, congrArg Prod.fst hr⟩
  rw [if_neg h4] at hr
  by_cases h5 : pyStartsWith (pyNorm cmd) "run " = true
  · rw [if_pos h5] at hr
    exact Or.inl ⟨_, congrArg Prod.fst hr⟩
  rw [if_neg h5] at hr
  by_cases h6 : pyStartsWith (pyNorm cmd) "add_goal " = true
  · rw [if_pos h6] at hr
    exact Or.inl ⟨_, congrArg Prod.fst hr⟩
  rw [if_neg h6] at hr
  by_cases h7 : pyStartsWith (pyNorm cmd) "progress " = true
  · rw [if_pos h7] at hr
    split at hr
    · next a b heq =>
        split at hr
        · exact Or.inr ⟨h7, Or.inr ⟨by rw [heq]; rfl, _, congrArg Prod.fst hr⟩⟩
        · split at hr
          · exact Or.inr ⟨h7, Or.inr ⟨by rw [heq]; rfl, _, congrArg Prod.fst hr⟩⟩
          · exact Or.inl ⟨_, congrArg Prod.fst hr⟩
    · next x hne =>
        refine Or.inr ⟨h7, Or.inl ⟨?_, congrArg Prod.fst hr⟩⟩
        intro hlen
        obtain ⟨a, b, hab⟩ := List.length_eq_two.mp hlen
        exact hne a b hab
  rw [if_neg h7] at hr
  by_cases h8 : pyNorm cmd = "learn code"
  · rw [if_pos h8] at hr
    exact Or.inl ⟨_, congrArg Prod.fst hr⟩
  rw [if_neg h8] at hr
  by_cases h9 : pyNorm cmd = "learn logic"
  · rw [if_pos h9] at hr
    exact Or.inl ⟨_, congrArg Prod.fst hr⟩
  rw [if_neg h9] at hr
  by_cases h10 : pyNorm cmd = "status"
  · rw [if_pos h10] at hr
    exact Or.inl ⟨_, congrArg Prod.fst hr⟩
  rw [if_neg h10] at hr
  by_cases h11 : pyNorm cmd = "goals"
  · rw [if_pos h11] at hr
    exact Or.inl ⟨_, congrArg Prod.fst hr⟩
  rw [if_neg h11] at hr
  by_cases h12 : pyNorm cmd = "memory"
  · rw [if_pos h12] at hr
    exact Or.inl ⟨_, congrArg Prod.fst hr⟩
  rw [if_neg h12] at hr
  by_cases h13 : pyNorm cmd = "help"
  · rw [if_pos h13] at hr
    exact Or.inl ⟨_, congrArg Prod.fst hr⟩
  rw [if_neg h13] at hr
  exact Or.inl ⟨_, congrArg Prod.fst hr⟩

/-! ## The write_file dispatch slice (C10) -/

/-- C10: for every dispatched command whose normalisation has the form
`write_file <name> <content>`, the slice `command[10:]` (the prefix
`'write_file '` is 11 characters) starts at the separating space, so the
first `split(' ', 1)` part is always the empty string: the tool is invoked
with `""` as the filename and the whole lowercased remainder
`<name> <content>` as the content, `open('', 'w')` fails, and no file —
in particular none named `<name>` — is written: the state is returned
unchanged with the formatted write error. -/
theorem c10_write_file_empty_name (st : AIState) (o : PyRand) (cmd n cnt : String)
    (hn : pyNorm cmd = "write_file " ++ n ++ " " ++ cnt) :
    pySplit1 (pyDrop (pyNorm cmd) 10) = ("", some (n ++ " " ++ cnt)) ∧
    process_command st o cmd =
      (.str "File write error: [Errno 2] No such file or directory: ''", st) := by
  constructor
  · rw [hn]
    rfl
  · rw [process_command, hn]
    rfl

/-- Witness for C10: dispatching `write_file notes.txt hello` returns the
write-error string and leaves the state untouched — no file named
`notes.txt` is created. -/
theorem c10_witness :
    pyNorm "write_file notes.txt hello" = "write_file " ++ "notes.txt" ++ " " ++ "hello" ∧
    process_command (ThinkerGOAT.init Config.default []) oracle0 "write_file notes.txt hello" =
      (.str "File write error: [Errno 2] No such file or directory: ''",
        ThinkerGOAT.init Config.default []) := by
  have h := c10_write_file_empty_name (ThinkerGOAT.init Config.default []) oracle0
    "write_file notes.txt hello" "notes.txt" "hello" (by decide)
  exact ⟨by decide, h.2⟩
